import Mathlib

/-!
Verification of `df041_ThreadSafeRNG` (ROOT tutorial on thread-safe RNGs).

Shallow embedding of the random-number machinery used by the tutorial
`tutorials/analysis/dataframe/df041_ThreadSafeRNG.C` (and its sibling revision),
which defines three sampling functions built on `std::mt19937` and
`std::normal_distribution<double>(0., 1.)`:

* `GetGlobalNormallyDistributedNumber` / `GetGlobalRNG` — one generator and one
  distribution shared by all workers;
* `GetNormallyDistributedNumber` / `GetThreadSafeRNG` — free-running
  `thread_local` generator seeded from `std::random_device`;
* `GetNormallyDistributedNumberForEntry` — deterministic per-entry sampling, in
  two variants: reseed-and-reset of `thread_local` objects (`gaus.reset();
  generator.seed(entry);`) and construct-fresh-per-call
  (`std::mt19937 generator(entry); std::normal_distribution<double> gaus(0.,1.);`).

The Mersenne-Twister engine `std::mt19937` is pure 32-bit integer arithmetic and
is embedded exactly (seeding recurrence, twist, tempering), with machine words as
`ℕ` reduced `% 2 ^ 32`.  The floating-point Marsaglia polar transform inside
`std::normal_distribution` is outside a shallow embedding; every claim below is
about determinism and state flow, not about the real-valued transform, so the
transform is abstracted as an arbitrary pure function
`pair : MT → ℕ × ℕ × MT` that consumes engine state and yields the two variates
the distribution produces per refill (the distribution caches one of them in
`_M_saved`, which is exactly the state that `reset()` clears).
-/

namespace ThreadSafeRNG

/-- State of a `std::mt19937` engine: 624 words of 32 bits and the position of
the next untempered word (`_M_p` in libstdc++; equal to 624 right after
seeding, which forces a twist on the first draw). -/
structure MT where
  state : List ℕ
  pos : ℕ
deriving DecidableEq

/-- Seeding recurrence of `std::mersenne_twister_engine::seed`:
`x[i] = (1812433253 * (x[i-1] xor (x[i-1] >> 30)) + i) mod 2^32`.
`seedTail prev i c` produces the `c` words `x[i], …, x[i+c-1]` given
`prev = x[i-1]`. -/
def seedTail : ℕ → ℕ → ℕ → List ℕ
  | _, _, 0 => []
  | prev, i, c + 1 =>
      let cur := (1812433253 * (prev ^^^ (prev >>> 30)) + i) % 2 ^ 32
      cur :: seedTail cur (i + 1) c

/-- `std::mt19937` seeded with `s` (also the effect of the constructor
`std::mt19937(s)`): `x[0] = s mod 2^32`, the rest by the recurrence, and the
position at 624 so the first draw twists. -/
def mtSeed (s : ℕ) : MT :=
  let s0 := s % 2 ^ 32
  ⟨s0 :: seedTail s0 1 623, 624⟩

/-- `generator.seed(entry)` discards the whole previous engine state. -/
def MT.seed (_ : MT) (s : ℕ) : MT := mtSeed s

/-- Default seed of `std::mt19937` (used by its default constructor, as in
`thread_local std::mt19937 generator;`). -/
def defaultSeed : ℕ := 5489

/-- One step of the twist: recompute word `i` from words `i`, `(i+1) mod 624`
and `(i+397) mod 624` of the current (partially updated) state, as the
in-place `_M_gen_rand` loop does. -/
def twistStep (st : List ℕ) (i : ℕ) : List ℕ :=
  let x := (st.getD i 0 &&& 0x80000000) + (st.getD ((i + 1) % 624) 0 &&& 0x7fffffff)
  let xA := (x >>> 1) ^^^ (if x % 2 = 1 then 0x9908b0df else 0)
  st.set i (st.getD ((i + 397) % 624) 0 ^^^ xA)

/-- The full twist (`_M_gen_rand`): update all 624 words in place. -/
def twist (st : List ℕ) : List ℕ := (List.range 624).foldl twistStep st

/-- The output tempering of `std::mt19937`. -/
def temper (y : ℕ) : ℕ :=
  let y1 := y ^^^ (y >>> 11)
  let y2 := y1 ^^^ ((y1 <<< 7) &&& 0x9d2c5680)
  let y3 := y2 ^^^ ((y2 <<< 15) &&& 0xefc60000)
  y3 ^^^ (y3 >>> 18)

/-- `generator()`: twist if the 624 tempered words of the current block are
exhausted, then temper the word at the current position. -/
def MT.next (g : MT) : ℕ × MT :=
  if 624 ≤ g.pos then
    let st := twist g.state
    (temper (st.getD 0 0), ⟨st, 1⟩)
  else
    (temper (g.state.getD g.pos 0), ⟨g.state, g.pos + 1⟩)

/-- Well-formedness of an engine state: 624 words, all 32-bit, position within
the block. -/
def mtWF (g : MT) : Prop :=
  g.state.length = 624 ∧ (∀ v ∈ g.state, v < 2 ^ 32) ∧ g.pos ≤ 624

/-- Cached state of a `std::normal_distribution<double>(0., 1.)` object: the
saved second variate (`_M_saved`, guarded by `_M_saved_available`; `none` means
not available).  The parameters mean `0.` and stddev `1.` are fixed at every
construction site in the source. -/
structure NormalDist where
  saved : Option ℕ
deriving DecidableEq

/-- `gaus.reset()`: discard the cached variate (`_M_saved_available = false`). -/
def NormalDist.reset (_ : NormalDist) : NormalDist := ⟨none⟩

/-- `gaus(generator)`: if a variate is cached, consume it without touching the
engine; otherwise run the polar transform — abstracted as `pair`, which
consumes engine state and yields the two variates of one refill — then return
the second variate and cache the first, as libstdc++ does
(`_M_saved = x * mult; ret = y * mult`). -/
def NormalDist.sample (pair : MT → ℕ × ℕ × MT) (d : NormalDist) (g : MT) :
    ℕ × NormalDist × MT :=
  match d.saved with
  | some v => (v, ⟨none⟩, g)
  | none =>
      let r := pair g
      (r.2.1, ⟨some r.1⟩, r.2.2)

/-- A `thread_local` pair of distribution and engine owned by one worker (also
the shape of the shared globals `globalGaus` / `globalGenerator`). -/
structure Worker where
  gaus : NormalDist
  engine : MT
deriving DecidableEq

/-- Modelled from the spec: the floating-point Marsaglia polar transform of
`std::normal_distribution` is outside the embedding; `mtPair` instantiates the
abstract transform `pair` with the deterministic state flow the spec requires
of it — consume engine output, produce two values — using two tempered draws
in place of the two real variates derived from them. -/
def mtPair (g : MT) : ℕ × ℕ × MT :=
  let r1 := g.next
  let r2 := r1.2.next
  (r1.1, r2.1, r2.2)

/-- `GetGlobalNormallyDistributedNumber` (named `GetGlobalRNG` in the sibling
revision): `return globalGaus(globalGenerator);` — draw from the one shared
distribution/engine pair, mutating it. -/
def GetGlobalNormallyDistributedNumber (pair : MT → ℕ × ℕ × MT) (w : Worker) :
    ℕ × Worker :=
  let r := w.gaus.sample pair w.engine
  (r.1, ⟨r.2.1, r.2.2⟩)

/-- `GetNormallyDistributedNumber`: `return gaus(generator);` on the calling
worker's `thread_local` distribution/engine pair. -/
def GetNormallyDistributedNumber (pair : MT → ℕ × ℕ × MT) (w : Worker) :
    ℕ × Worker :=
  let r := w.gaus.sample pair w.engine
  (r.1, ⟨r.2.1, r.2.2⟩)

/-- `GetThreadSafeRNG(unsigned int slot)`: body identical to
`GetNormallyDistributedNumber`; the `slot` argument appears in the signature
only (RDataFrame's `DefineSlot` calling convention) and is never read. -/
def GetThreadSafeRNG (pair : MT → ℕ × ℕ × MT) (w : Worker) (slot : ℕ) :
    ℕ × Worker :=
  let r := w.gaus.sample pair w.engine
  (r.1, ⟨r.2.1, r.2.2⟩)

/-- Initial `thread_local` state of `GetNormallyDistributedNumber` /
`GetThreadSafeRNG` on a worker whose `std::random_device` yielded entropy `e`:
`generator(rd())` and a fresh distribution. -/
def entropyWorker (e : ℕ) : Worker := ⟨⟨none⟩, mtSeed e⟩

/-- Initial `thread_local` state of `GetNormallyDistributedNumberForEntry` on a
fresh worker: default-constructed `std::mt19937` (seed 5489) and a fresh
distribution. -/
def initialEntryWorker : Worker := ⟨⟨none⟩, mtSeed defaultSeed⟩

/-- `GetNormallyDistributedNumberForEntry` (reseed-and-reset revision):
`gaus.reset(); generator.seed(entry); return gaus(generator);` on the worker's
`thread_local` state, returning the sample and the updated worker state. -/
def GetNormallyDistributedNumberForEntry (pair : MT → ℕ × ℕ × MT) (w : Worker)
    (entry : ℕ) : ℕ × Worker :=
  let d := w.gaus.reset
  let g := w.engine.seed entry
  let r := d.sample pair g
  (r.1, ⟨r.2.1, r.2.2⟩)

/-- `GetNormallyDistributedNumberForEntry` (construct-fresh revision,
`src/unnamed/part_000`): `std::mt19937 generator(entry);
std::normal_distribution<double> gaus(0., 1.); return gaus(generator);` —
no surviving state. -/
def GetNormallyDistributedNumberForEntryFresh (pair : MT → ℕ × ℕ × MT)
    (entry : ℕ) : ℕ :=
  (NormalDist.sample pair ⟨none⟩ (mtSeed entry)).1

/-- The reseed-and-reset body with the `gaus.reset()` call omitted — the
pitfall the source comment warns about. -/
def GetNormallyDistributedNumberForEntryNoReset (pair : MT → ℕ × ℕ × MT)
    (w : Worker) (entry : ℕ) : ℕ × Worker :=
  let g := w.engine.seed entry
  let r := w.gaus.sample pair g
  (r.1, ⟨r.2.1, r.2.2⟩)

/-- One worker processing its assigned entry list with the deterministic
per-entry function, threading its `thread_local` state and pairing each entry
with the value produced for it. -/
def entryRun (pair : MT → ℕ × ℕ × MT) : Worker → List ℕ → List (ℕ × ℕ)
  | _, [] => []
  | w, e :: es =>
      let r := GetNormallyDistributedNumberForEntry pair w e
      (e, r.1) :: entryRun pair r.2 es

/-- One worker processing its assigned entry list with the free-running
function: the draw never reads the entry. -/
def freeRun (pair : MT → ℕ × ℕ × MT) : Worker → List ℕ → List (ℕ × ℕ)
  | _, [] => []
  | w, e :: es =>
      let r := GetNormallyDistributedNumber pair w
      (e, r.1) :: freeRun pair r.2 es

/-- Interleaved execution of two workers drawing without synchronization from
the ONE shared global pair: the schedule lists which worker draws next, and
each value is tagged with the worker that received it. -/
def sharedRun (pair : MT → ℕ × ℕ × MT) : Worker → List Bool → List (Bool × ℕ)
  | _, [] => []
  | w, b :: bs =>
      let r := GetGlobalNormallyDistributedNumber pair w
      (b, r.1) :: sharedRun pair r.2 bs

/-- The values one worker receives, in order, from an interleaved shared run. -/
def valuesFor (b : Bool) (l : List (Bool × ℕ)) : List ℕ :=
  l.filterMap fun p => if p.1 = b then some p.2 else none

/-- Outputs of `k` successive engine draws after seeding with `s`, with the
final engine state. -/
def mtStream : MT → ℕ → List ℕ × MT
  | g, 0 => ([], g)
  | g, k + 1 =>
      let r := g.next
      let rest := mtStream r.2 k
      (r.1 :: rest.1, rest.2)

/-! ## Well-formedness of the engine: every `ℕ` seeds to a valid state and
drawing preserves validity, producing 32-bit outputs. -/

theorem shiftRight_le_self (n k : ℕ) : n >>> k ≤ n := by
  rw [Nat.shiftRight_eq_div_pow]
  exact Nat.div_le_self _ _

theorem seedTail_length : ∀ (c prev i : ℕ), (seedTail prev i c).length = c := by
  intro c
  induction c with
  | zero => intro prev i; rfl
  | succ c ih => intro prev i; simpa [seedTail] using ih _ (i + 1)

theorem seedTail_lt : ∀ (c prev i : ℕ), ∀ v ∈ seedTail prev i c, v < 2 ^ 32 := by
  intro c
  induction c with
  | zero => intro prev i v hv; simp [seedTail] at hv
  | succ c ih =>
      intro prev i v hv
      simp only [seedTail, List.mem_cons] at hv
      rcases hv with h | h
      · subst h; exact Nat.mod_lt _ (by norm_num)
      · exact ih _ _ v h

theorem mtSeed_wf (s : ℕ) : mtWF (mtSeed s) := by
  refine ⟨?_, ?_, le_refl _⟩
  · simp [mtSeed, seedTail_length]
  · intro v hv
    simp only [mtSeed, List.mem_cons] at hv
    rcases hv with h | h
    · subst h; exact Nat.mod_lt _ (by norm_num)
    · exact seedTail_lt _ _ _ v h

theorem getD_lt {st : List ℕ} {B : ℕ} (hB : 0 < B) (h : ∀ v ∈ st, v < B)
    (i : ℕ) : st.getD i 0 < B := by
  by_cases hi : i < st.length
  · rw [List.getD_eq_getElem st 0 hi]
    exact h _ (List.getElem_mem hi)
  · rw [List.getD_eq_default st 0 (Nat.le_of_not_lt hi)]
    exact hB

theorem twistStep_length (st : List ℕ) (i : ℕ) :
    (twistStep st i).length = st.length := List.length_set st i _

theorem twistStep_lt {st : List ℕ} (h : ∀ v ∈ st, v < 2 ^ 32) (i : ℕ) :
    ∀ v ∈ twistStep st i, v < 2 ^ 32 := by
  intro v hv
  rcases List.mem_or_eq_of_mem_set hv with hm | he
  · exact h v hm
  · subst he
    have hpos : (0 : ℕ) < 2 ^ 32 := by norm_num
    refine Nat.xor_lt_two_pow (getD_lt hpos h _) (Nat.xor_lt_two_pow ?_ ?_)
    · calc ((st.getD i 0 &&& 0x80000000) + (st.getD ((i + 1) % 624) 0 &&& 0x7fffffff)) >>> 1
          ≤ (st.getD i 0 &&& 0x80000000) + (st.getD ((i + 1) % 624) 0 &&& 0x7fffffff) :=
            shiftRight_le_self _ _
        _ ≤ 0x80000000 + 0x7fffffff := Nat.add_le_add Nat.and_le_right Nat.and_le_right
        _ < 2 ^ 32 := by norm_num
    · split <;> norm_num

theorem foldl_twistStep_length : ∀ (l : List ℕ) (st : List ℕ),
    (l.foldl twistStep st).length = st.length := by
  intro l
  induction l with
  | nil => intro st; rfl
  | cons a as ih =>
      intro st
      simpa [List.foldl_cons, twistStep_length] using ih (twistStep st a)

theorem foldl_twistStep_lt : ∀ (l : List ℕ) (st : List ℕ),
    (∀ v ∈ st, v < 2 ^ 32) → ∀ v ∈ l.foldl twistStep st, v < 2 ^ 32 := by
  intro l
  induction l with
  | nil => intro st h; simpa using h
  | cons a as ih => intro st h; exact ih _ (twistStep_lt h a)

theorem twist_length (st : List ℕ) : (twist st).length = st.length :=
  foldl_twistStep_length _ st

theorem twist_lt {st : List ℕ} (h : ∀ v ∈ st, v < 2 ^ 32) :
    ∀ v ∈ twist st, v < 2 ^ 32 := foldl_twistStep_lt _ st h

theorem xor_shiftRight_lt {y k : ℕ} (hy : y < 2 ^ 32) :
    y ^^^ (y >>> k) < 2 ^ 32 :=
  Nat.xor_lt_two_pow hy (lt_of_le_of_lt (shiftRight_le_self _ _) hy)

theorem xor_and_lt {y z m : ℕ} (hy : y < 2 ^ 32) (hm : m < 2 ^ 32) :
    y ^^^ (z &&& m) < 2 ^ 32 :=
  Nat.xor_lt_two_pow hy (lt_of_le_of_lt Nat.and_le_right hm)

theorem temper_lt {y : ℕ} (hy : y < 2 ^ 32) : temper y < 2 ^ 32 := by
  show _ ^^^ _ < 2 ^ 32
  exact xor_shiftRight_lt
    (xor_and_lt (xor_and_lt (xor_shiftRight_lt hy) (by norm_num)) (by norm_num))

theorem mtWF_mk (st : List ℕ) (p : ℕ) :
    mtWF ⟨st, p⟩ ↔ st.length = 624 ∧ (∀ v ∈ st, v < 2 ^ 32) ∧ p ≤ 624 :=
  Iff.rfl

theorem MT.next_eq_twist {g : MT} (h : 624 ≤ g.pos) :
    g.next = (temper ((twist g.state).getD 0 0), ⟨twist g.state, 1⟩) := by
  simp only [MT.next, if_pos h]

theorem MT.next_eq_read {g : MT} (h : ¬ 624 ≤ g.pos) :
    g.next = (temper (g.state.getD g.pos 0), ⟨g.state, g.pos + 1⟩) := by
  simp only [MT.next, if_neg h]

theorem MT.next_fst_twist {g : MT} (h : 624 ≤ g.pos) :
    g.next.1 = temper ((twist g.state).getD 0 0) := by
  rw [MT.next_eq_twist h]

theorem MT.next_snd_twist {g : MT} (h : 624 ≤ g.pos) :
    g.next.2 = MT.mk (twist g.state) 1 := by
  rw [MT.next_eq_twist h]

theorem MT.next_fst_read {g : MT} (h : ¬ 624 ≤ g.pos) :
    g.next.1 = temper (g.state.getD g.pos 0) := by
  rw [MT.next_eq_read h]

theorem MT.next_snd_read {g : MT} (h : ¬ 624 ≤ g.pos) :
    g.next.2 = MT.mk g.state (g.pos + 1) := by
  rw [MT.next_eq_read h]

theorem next_fst_lt {g : MT} (hg : mtWF g) : g.next.1 < 2 ^ 32 := by
  obtain ⟨hlen, hlt, hpos⟩ := hg
  by_cases h : 624 ≤ g.pos
  · rw [MT.next_fst_twist h]
    exact temper_lt (getD_lt (by norm_num) (twist_lt hlt) 0)
  · rw [MT.next_fst_read h]
    exact temper_lt (getD_lt (by norm_num) hlt g.pos)

theorem next_wf {g : MT} (hg : mtWF g) : mtWF g.next.2 := by
  obtain ⟨hlen, hlt, hpos⟩ := hg
  by_cases h : 624 ≤ g.pos
  · rw [MT.next_snd_twist h, mtWF_mk]
    exact ⟨(twist_length g.state).trans hlen, twist_lt hlt, by norm_num⟩
  · rw [MT.next_snd_read h, mtWF_mk]
    exact ⟨hlen, hlt, Nat.succ_le_of_lt (Nat.lt_of_not_le h)⟩

theorem mtStream_wf : ∀ (k : ℕ) (g : MT), mtWF g →
    mtWF (mtStream g k).2 ∧ ∀ v ∈ (mtStream g k).1, v < 2 ^ 32 := by
  intro k
  induction k with
  | zero => intro g hg; exact ⟨hg, by simp [mtStream]⟩
  | succ k ih =>
      intro g hg
      obtain ⟨hwf, hvals⟩ := ih g.next.2 (next_wf hg)
      refine ⟨by simpa [mtStream] using hwf, ?_⟩
      intro v hv
      simp only [mtStream, List.mem_cons] at hv
      rcases hv with h | h
      · subst h; exact next_fst_lt hg
      · exact hvals v h

/-! ## Shared facts about the per-entry sampling functions -/

/-- The value produced by the reseed-and-reset body is the value of the
construct-fresh body: `reset` empties the cache unconditionally and `seed`
discards the whole engine state, so the draw happens from `⟨none⟩` and
`mtSeed entry` whatever the worker state was. -/
theorem forEntry_fst_eq_fresh (pair : MT → ℕ × ℕ × MT) (w : Worker)
    (entry : ℕ) :
    (GetNormallyDistributedNumberForEntry pair w entry).1 =
      GetNormallyDistributedNumberForEntryFresh pair entry := rfl

/-- A full worker run of the per-entry function is pointwise the
construct-fresh value of each entry, independent of the starting state. -/
theorem entryRun_eq_map (pair : MT → ℕ × ℕ × MT) :
    ∀ (es : List ℕ) (w : Worker),
      entryRun pair w es =
        es.map fun e => (e, GetNormallyDistributedNumberForEntryFresh pair e) := by
  intro es
  induction es with
  | nil => intro w; rfl
  | cons e es ih =>
      intro w
      simp only [entryRun, List.map_cons]
      rw [forEntry_fst_eq_fresh, ih]

/-! ## The claims -/

/-- Claim C1: for every work-item identifier, the deterministic per-item
generator `GetNormallyDistributedNumberForEntry` returns a value that depends
only on the identifier and the distribution's fixed parameters (mean 0 and
stddev 1 are baked into every construction site): two workers with arbitrary
prior generator and distribution states — covering prior invocations, prior
draws, worker count and scheduling — produce the same value for the same
identifier, for every sampling transform `pair`. -/
theorem claim1_per_entry_depends_only_on_id (pair : MT → ℕ × ℕ × MT)
    (w w' : Worker) (entry : ℕ) :
    (GetNormallyDistributedNumberForEntry pair w entry).1 =
      (GetNormallyDistributedNumberForEntry pair w' entry).1 :=
  (forEntry_fst_eq_fresh pair w entry).trans
    (forEntry_fst_eq_fresh pair w' entry).symm

/-- Claim C2: the two strategies for the deterministic per-item generator are
equivalent — the reseed-and-reset implementation (thread-local engine reseeded
with the identifier after resetting the distribution's cache) and the
construct-fresh implementation (brand-new engine seeded with the identifier and
brand-new distribution) produce the same sample for every identifier, from any
prior worker state and for every sampling transform. -/
theorem claim2_strategies_equivalent (pair : MT → ℕ × ℕ × MT) (w : Worker)
    (entry : ℕ) :
    (GetNormallyDistributedNumberForEntry pair w entry).1 =
      GetNormallyDistributedNumberForEntryFresh pair entry :=
  forEntry_fst_eq_fresh pair w entry

/-- Claim C3: no cross-item leakage for the reseed-and-reset strategy — drawing
for `id1` immediately followed by `id2` on the same worker (threading the
worker's thread-local state) yields the same value for `id2` as drawing `id2`
alone on a fresh worker whose engine is default-constructed (seed 5489) and
whose distribution cache is empty. -/
theorem claim3_no_cross_item_leakage (pair : MT → ℕ × ℕ × MT) (w : Worker)
    (id1 id2 : ℕ) :
    (GetNormallyDistributedNumberForEntry pair
        (GetNormallyDistributedNumberForEntry pair w id1).2 id2).1 =
      (GetNormallyDistributedNumberForEntry pair initialEntryWorker id2).1 :=
  (forEntry_fst_eq_fresh pair _ id2).trans
    (forEntry_fst_eq_fresh pair initialEntryWorker id2).symm

/-- Claim C4: order-independence — for every sequence of identifiers and every
permutation of the submission order (and any worker states, modelling any
assignment to workers), the per-identifier output value is unchanged: the two
runs are permutations of each other, and every value produced for an
identifier is that identifier's construct-fresh value. -/
theorem claim4_order_independence (pair : MT → ℕ × ℕ × MT) (w w' : Worker)
    (es es' : List ℕ) (hp : es.Perm es') :
    (entryRun pair w es).Perm (entryRun pair w' es') ∧
      ∀ e v, (e, v) ∈ entryRun pair w es →
        v = GetNormallyDistributedNumberForEntryFresh pair e := by
  constructor
  · rw [entryRun_eq_map, entryRun_eq_map]
    exact hp.map _
  · intro e v hv
    rw [entryRun_eq_map] at hv
    simp only [List.mem_map] at hv
    obtain ⟨a, _, heq⟩ := hv
    cases heq
    rfl

/-- Witness for C4 at the concrete permuted lists `[3, 5]` and `[5, 3]`. -/
theorem claim4_order_independence_witness :
    ([3, 5] : List ℕ).Perm [5, 3] ∧
      ((entryRun mtPair initialEntryWorker [3, 5]).Perm
          (entryRun mtPair initialEntryWorker [5, 3]) ∧
        ∀ e v, (e, v) ∈ entryRun mtPair initialEntryWorker [3, 5] →
          v = GetNormallyDistributedNumberForEntryFresh mtPair e) :=
  ⟨List.Perm.swap 5 3 [], claim4_order_independence mtPair initialEntryWorker
      initialEntryWorker [3, 5] [5, 3] (List.Perm.swap 5 3 [])⟩

/-- Claim C5: the reseed-and-reset strategy is correct only because the cache
reset is performed together with the reseed on every call: with both steps the
value is independent of the prior worker state, while the variant that omits
`gaus.reset()` has, for every sampling transform and every entry, two worker
states (differing in the buffered variate left by earlier draws, i.e. exactly
the scheduling-dependent part) that produce different values. -/
theorem claim5_reset_required (pair : MT → ℕ × ℕ × MT) (entry : ℕ) :
    (∀ w w' : Worker,
        (GetNormallyDistributedNumberForEntry pair w entry).1 =
          (GetNormallyDistributedNumberForEntry pair w' entry).1) ∧
      ∃ w w' : Worker,
        (GetNormallyDistributedNumberForEntryNoReset pair w entry).1 ≠
          (GetNormallyDistributedNumberForEntryNoReset pair w' entry).1 := by
  refine ⟨fun w w' => (forEntry_fst_eq_fresh pair w entry).trans
      (forEntry_fst_eq_fresh pair w' entry).symm, ?_⟩
  refine ⟨⟨⟨some ((pair (mtSeed entry)).2.1 + 1)⟩, mtSeed 0⟩,
    ⟨⟨none⟩, mtSeed 0⟩, ?_⟩
  have h1 : (GetNormallyDistributedNumberForEntryNoReset pair
      ⟨⟨some ((pair (mtSeed entry)).2.1 + 1)⟩, mtSeed 0⟩ entry).1 =
      (pair (mtSeed entry)).2.1 + 1 := rfl
  have h2 : (GetNormallyDistributedNumberForEntryNoReset pair
      ⟨⟨none⟩, mtSeed 0⟩ entry).1 = (pair (mtSeed entry)).2.1 := rfl
  rw [h1, h2]
  omega

/-- Claim C6: totality and absence of error paths — every natural number (in
particular every unsigned integer) is a valid seed, producing a well-formed
engine state, and any number of draws keeps the engine well-formed while every
produced word is a valid 32-bit value for the sampling step to consume; the
sampling functions themselves are total Lean functions with no error value. -/
theorem claim6_totality (s k : ℕ) :
    mtWF (mtSeed s) ∧ mtWF (mtStream (mtSeed s) k).2 ∧
      ∀ v ∈ (mtStream (mtSeed s) k).1, v < 2 ^ 32 :=
  ⟨mtSeed_wf s, (mtStream_wf k (mtSeed s) (mtSeed_wf s)).1,
    (mtStream_wf k (mtSeed s) (mtSeed_wf s)).2⟩

set_option maxRecDepth 1000000 in
/-- Claim C7: the free-running worker-local generator is not reproducible —
the value drawn while processing an item is not a function of the item's
identifier: it is fully determined by the worker's initial (entropy-seeded)
state and the number of items the worker processed before (first conjunct:
the value sequence is the same for any two identifier lists of equal length),
and two executions over the same identifier set whose workers start from
different `std::random_device` entropy differ in the value produced for the
same identifier (second conjunct, at the real mt19937 with the `mtPair`
transform). -/
theorem claim7_free_running_not_reproducible :
    (∀ (pair : MT → ℕ × ℕ × MT) (w : Worker) (es es' : List ℕ),
        es.length = es'.length →
        (freeRun pair w es).map Prod.snd = (freeRun pair w es').map Prod.snd) ∧
      ∃ e e' i : ℕ,
        (freeRun mtPair (entropyWorker e) [i]).map Prod.snd ≠
          (freeRun mtPair (entropyWorker e') [i]).map Prod.snd := by
  constructor
  · intro pair w es es' h
    induction es generalizing w es' with
    | nil =>
        cases es' with
        | nil => rfl
        | cons b bs => simp at h
    | cons a as ih =>
        cases es' with
        | nil => simp at h
        | cons b bs =>
            simp only [List.length_cons] at h
            simp only [freeRun, List.map_cons]
            rw [ih _ bs (by omega)]
  · refine ⟨0, 1, 0, ?_⟩
    decide

/-- Witness for the first conjunct of C7 at the concrete equal-length
identifier lists `[7]` and `[8]`. -/
theorem claim7_free_running_not_reproducible_witness :
    ([7] : List ℕ).length = ([8] : List ℕ).length ∧
      (freeRun mtPair (entropyWorker 0) [7]).map Prod.snd =
        (freeRun mtPair (entropyWorker 0) [8]).map Prod.snd :=
  ⟨rfl, claim7_free_running_not_reproducible.1 mtPair (entropyWorker 0)
      [7] [8] rfl⟩

set_option maxRecDepth 1000000 in
/-- Claim C8: the shared-global-generator variant is not thread-safe — two
workers drawing concurrently, without synchronization, from the one shared
`globalGaus` / `globalGenerator` pair race on its state: rendered in the
interleaving model, there is a shared initial state and two schedules, mere
permutations of one another (same per-worker draw counts), under which the
same worker receives different values, so the outcome depends on the
scheduling of the unsynchronized accesses. -/
theorem claim8_shared_generator_race :
    ∃ (g : MT) (s s' : List Bool), s.Perm s' ∧
      valuesFor true (sharedRun mtPair ⟨⟨none⟩, g⟩ s) ≠
        valuesFor true (sharedRun mtPair ⟨⟨none⟩, g⟩ s') := by
  refine ⟨mtSeed 0, [true, false], [false, true],
    List.Perm.swap false true [], ?_⟩
  decide

/-- Claim C9: seed truncation at the public interface — the entry identifier
is a 64-bit quantity but `std::mt19937`'s seeding reduces it modulo `2 ^ 32`,
so any two identifiers congruent modulo `2 ^ 32` receive identical sample
values, in both per-entry variants. -/
theorem claim9_seed_truncation (pair : MT → ℕ × ℕ × MT) (w : Worker)
    (id1 id2 : ℕ) (h : id1 % 2 ^ 32 = id2 % 2 ^ 32) :
    (GetNormallyDistributedNumberForEntry pair w id1).1 =
      (GetNormallyDistributedNumberForEntry pair w id2).1 ∧
    GetNormallyDistributedNumberForEntryFresh pair id1 =
      GetNormallyDistributedNumberForEntryFresh pair id2 := by
  have hs : mtSeed id1 = mtSeed id2 := by
    unfold mtSeed
    rw [h]
  constructor
  · rw [forEntry_fst_eq_fresh, forEntry_fst_eq_fresh]
    unfold GetNormallyDistributedNumberForEntryFresh
    rw [hs]
  · unfold GetNormallyDistributedNumberForEntryFresh
    rw [hs]

/-- Witness for C9 at the colliding identifiers `2 ^ 32 + 7` and `7`. -/
theorem claim9_seed_truncation_witness :
    (2 ^ 32 + 7) % 2 ^ 32 = (7 : ℕ) % 2 ^ 32 ∧
      ((GetNormallyDistributedNumberForEntry mtPair initialEntryWorker
            (2 ^ 32 + 7)).1 =
          (GetNormallyDistributedNumberForEntry mtPair initialEntryWorker 7).1 ∧
        GetNormallyDistributedNumberForEntryFresh mtPair (2 ^ 32 + 7) =
          GetNormallyDistributedNumberForEntryFresh mtPair 7) :=
  ⟨by norm_num, claim9_seed_truncation mtPair initialEntryWorker _ _
      (by norm_num)⟩

/-- Claim C10: the `slot` argument of `GetThreadSafeRNG` is ignored — with the
same worker-local generator and distribution state, any two slot values give
the identical result (value and successor state alike). -/
theorem claim10_slot_ignored (pair : MT → ℕ × ℕ × MT) (w : Worker)
    (slot1 slot2 : ℕ) :
    GetThreadSafeRNG pair w slot1 = GetThreadSafeRNG pair w slot2 := rfl

end ThreadSafeRNG
